import Mathlib

/-!
# libwinmedia, `src/linux/player.hpp`: the `Player` class

A shallow embedding of the Linux `Player`: its member state, the eight channel
handlers bound in the constructor, the transport and window operations, and
`EnsureFuture`.  The webview and GTK are external; every call made into them is
recorded as an `Effect`, in the order the code issues it.

Conventions of the embedding

* `std::string` is `Str`, the list of its `char` elements, so `size()` is
  `List.length`.
* `int32_t` values are `Int`; `size_t` values are `Nat`, and a conversion or
  subtraction in `size_t` is reduced modulo `2 ^ 64` (LP64 Linux).
* `float` is `Float32`, a bit pattern; `std::stof` and `std::to_string(float)`
  are taken as parameters (`FloatLib`).
* A call either returns (`Status.ok`), throws (`Status.threw`), has no defined
  behaviour (`Status.undefined`: `front()` of an empty vector, signed overflow
  of `++index_` and `--index_`), or never returns (`Status.blocked`: the wait
  on a promise that has not been fulfilled).  The `Player` carried by an
  `Outcome` is the member state at that point.
-/

namespace Libwinmedia

/-- One `std::string`, as the list of its `char` elements. -/
abbrev Str := List Char

/-- A C++ `float`, kept as its binary32 bit pattern. -/
structure Float32 where
  bits : Nat
deriving DecidableEq, Repr

/-- The exceptions the standard library raises in this class. -/
inductive Exn where
  | out_of_range
  | invalid_argument
  | future_error
deriving DecidableEq, Repr

/-- How a call ends. -/
inductive Status where
  | ok
  | threw (e : Exn)
  | undefined
  | blocked
deriving DecidableEq, Repr

/-- A call made by the operations into the webview, GTK or the promise.
`wait` is `promise_->get_future().wait()` having returned. -/
inductive Effect where
  | wait
  | eval (js : Str)
  | gtk_widget_show
  | gtk_widget_hide
  | terminate
deriving DecidableEq, Repr

/-- The floating-point part of the standard library used by the class:
`std::stof` and `std::to_string(float)`. -/
structure FloatLib where
  stof : Str → Except Exn Float32
  to_string : Float32 → Str

/-- The data members of `Player` (lines 59-77).  `promise_set` is the state of
`*promise_`: whether `set_value()` has been called on it. -/
structure Player where
  id_ : Int
  index_ : Int
  media_ids_ : List Int
  media_uris_ : List Str
  is_playing_ : Bool
  is_buffering_ : Bool
  is_completed_ : Bool
  position_ : Int
  duration_ : Int
  volume_ : Float32
  rate_ : Float32
  promise_set : Bool
  initialized_ : Bool
deriving DecidableEq, Repr

/-- The member state a constructed `Player` starts with (default member
initialisers, `id_(id)`). -/
def Player.new (id : Int) : Player :=
  { id_ := id, index_ := 0, media_ids_ := [], media_uris_ := [],
    is_playing_ := false, is_buffering_ := false, is_completed_ := false,
    position_ := 0, duration_ := 0, volume_ := ⟨0⟩, rate_ := ⟨0⟩,
    promise_set := false, initialized_ := false }

/-- Result of running a piece of code: member state, effects issued, status. -/
structure Outcome where
  player : Player
  emitted : List Effect
  status : Status
deriving DecidableEq, Repr

/-- Sequencing: the continuation runs only when the first part returned. -/
def Outcome.andThen (o : Outcome) (k : Player → Outcome) : Outcome :=
  match o.status with
  | .ok => ⟨(k o.player).player, o.emitted ++ (k o.player).emitted, (k o.player).status⟩
  | _ => o

/-- Returning normally with the given member state and no effect. -/
def ret (p : Player) : Outcome := ⟨p, [], .ok⟩

/-- The call `webview_->eval(js)`. -/
def eval (p : Player) (js : Str) : Outcome := ⟨p, [.eval js], .ok⟩

/-! ## Machine integers and the standard library -/

def INT32_MIN : Int := -2147483648
def INT32_MAX : Int := 2147483647

/-- The value fits `int32_t`. -/
def isInt32 (i : Int) : Prop := INT32_MIN ≤ i ∧ i ≤ INT32_MAX

instance (i : Int) : Decidable (isInt32 i) := by unfold isInt32; infer_instance

/-- Conversion of an integer to `size_t`. -/
def size_t (i : Int) : Nat := (i % 2 ^ 64).toNat

/-- An upper bound on `max_size()` of every `std::vector` and `std::string`
(`PTRDIFF_MAX`): no container holds more elements. -/
def max_size : Nat := 2 ^ 63 - 1

/-- The call `v.at(n)`: `none` stands for `std::out_of_range`. -/
def vector_at {α : Type} (v : List α) (n : Nat) : Option α :=
  if n < v.length then v[n]? else none

/-- The call `s.substr(pos, n)`: throws when `pos > size()`, otherwise the at
most `n` characters from `pos` on. -/
def substr (s : Str) (pos n : Nat) : Except Exn Str :=
  if s.length < pos then .error .out_of_range else .ok ((s.drop pos).take n)

/-- The expression `event.substr(1, event.size() - 2)` of every handler. -/
def unwrapEvent (event : Str) : Except Exn Str :=
  substr event 1 (size_t ((event.length : Int) - 2))

/-- The character classes of `strtol` in the C locale. -/
def isspace (c : Char) : Bool := c.toNat = 32 ∨ (9 ≤ c.toNat ∧ c.toNat ≤ 13)

def isdigit (c : Char) : Bool := 48 ≤ c.toNat ∧ c.toNat ≤ 57

/-- Value of a run of decimal digits. -/
def digitsValue (ds : List Char) : Nat :=
  ds.foldl (fun acc c => 10 * acc + (c.toNat - 48)) 0

/-- The call `std::stoi(str)` (base 10): skip white space, take an optional
sign, then the longest run of digits; `invalid_argument` when there is no
digit, `out_of_range` when the value does not fit `int`.  What follows the
digits is ignored. -/
def stoi (str : Str) : Except Exn Int :=
  let s := str.dropWhile isspace
  let neg : Bool := s.head? = some '-'
  let body := if s.head? = some '-' ∨ s.head? = some '+' then s.tail else s
  let ds := body.takeWhile isdigit
  if ds = [] then .error .invalid_argument
  else
    let v : Int := if neg then -(digitsValue ds : Int) else (digitsValue ds : Int)
    if v < INT32_MIN ∨ INT32_MAX < v then .error .out_of_range else .ok v

/-- The call `std::to_string(int)`. -/
def to_string (i : Int) : Str := (toString i).toList

/-! ## `EnsureFuture` and the operations (lines 186-260) -/

namespace Player

/-- Lines 255-260.  The wait returns once the promise is fulfilled; on an
unfulfilled promise the call does not return. -/
def EnsureFuture (p : Player) : Outcome :=
  if p.initialized_ then ret p
  else if p.promise_set then ⟨{ p with initialized_ := true }, [.wait], .ok⟩
  else ⟨p, [], .blocked⟩

/-- Lines 186-189. -/
def ShowWindow (p : Player) : Outcome :=
  (EnsureFuture p).andThen fun p => ⟨p, [.gtk_widget_show], .ok⟩

/-- Lines 191-194. -/
def CloseWindow (p : Player) : Outcome :=
  (EnsureFuture p).andThen fun p => ⟨p, [.gtk_widget_hide], .ok⟩

/-- The script text `player.src = encodeURI('<uri>');`. -/
def srcScript (uri : Str) : Str :=
  "player.src = encodeURI('".toList ++ uri ++ "');".toList

/-- Lines 196-202. -/
def Open (p : Player) (uris : List Str) (ids : List Int) : Outcome :=
  (EnsureFuture p).andThen fun p =>
    let p := { p with index_ := 0 }
    let p := { p with media_ids_ := ids }
    let p := { p with media_uris_ := uris }
    match p.media_uris_.head? with
    | none => ⟨p, [], .undefined⟩
    | some front => eval p (srcScript front)

/-- Lines 204-207. -/
def Play (p : Player) : Outcome :=
  (EnsureFuture p).andThen fun p => eval p "player.play();".toList

/-- Lines 209-212. -/
def Pause (p : Player) : Outcome :=
  (EnsureFuture p).andThen fun p => eval p "player.pause();".toList

/-- Lines 214-217. -/
def Stop (p : Player) : Outcome :=
  (EnsureFuture p).andThen fun p => ⟨p, [.terminate], .ok⟩

/-- Lines 229-235. -/
def Jump (p : Player) (index : Int) : Outcome :=
  (EnsureFuture p).andThen fun p =>
  (Pause p).andThen fun p =>
    let p := { p with index_ := index }
    match vector_at p.media_uris_ (size_t p.index_) with
    | none => ⟨p, [], .threw .out_of_range⟩
    | some uri => (eval p (srcScript uri)).andThen Play

/-- Lines 219-222.  `++index_` on `INT32_MAX` overflows. -/
def Next (p : Player) : Outcome :=
  (EnsureFuture p).andThen fun p =>
    if INT32_MAX < p.index_ + 1 then ⟨p, [], .undefined⟩
    else
      let p := { p with index_ := p.index_ + 1 }
      Jump p p.index_

/-- Lines 224-227.  `--index_` on `INT32_MIN` overflows. -/
def Back (p : Player) : Outcome :=
  (EnsureFuture p).andThen fun p =>
    if p.index_ - 1 < INT32_MIN then ⟨p, [], .undefined⟩
    else
      let p := { p with index_ := p.index_ - 1 }
      Jump p p.index_

/-- Lines 237-241. -/
def Seek (p : Player) (position : Int) : Outcome :=
  (EnsureFuture p).andThen fun p =>
    eval p ("player.currentTime = ".toList ++ to_string position ++ " / 1000.0;".toList)

/-- Lines 243-246. -/
def SetVolume (fl : FloatLib) (p : Player) (volume : Float32) : Outcome :=
  (EnsureFuture p).andThen fun p =>
    eval p ("player.volume = ".toList ++ fl.to_string volume ++ ";".toList)

/-- Lines 248-251. -/
def SetRate (fl : FloatLib) (p : Player) (rate : Float32) : Outcome :=
  (EnsureFuture p).andThen fun p =>
    eval p ("player.playbackRate = ".toList ++ fl.to_string rate ++ ";".toList)

end Player

/-! ## The channel handlers bound in the constructor (lines 146-177) -/

/-- The eight channels. -/
inductive Channel where
  | initialized
  | isPlaying
  | isBuffering
  | isCompleted
  | position
  | duration
  | volume
  | rate
deriving DecidableEq, Repr

namespace Player

/-- Lines 146-149: `promise_->set_value()`, which throws on a promise that is
already fulfilled. -/
def on_initialized (p : Player) (_event : Str) : Outcome :=
  if p.promise_set then ⟨p, [], .threw .future_error⟩
  else ret { p with promise_set := true }

/-- Lines 150-153. -/
def on_isPlaying (p : Player) (event : Str) : Outcome :=
  match unwrapEvent event with
  | .error e => ⟨p, [], .threw e⟩
  | .ok s => ret { p with is_playing_ := if s = "true".toList then true else false }

/-- Lines 154-157. -/
def on_isBuffering (p : Player) (event : Str) : Outcome :=
  match unwrapEvent event with
  | .error e => ⟨p, [], .threw e⟩
  | .ok s => ret { p with is_buffering_ := if s = "true".toList then true else false }

/-- Lines 158-161. -/
def on_isCompleted (p : Player) (event : Str) : Outcome :=
  match unwrapEvent event with
  | .error e => ⟨p, [], .threw e⟩
  | .ok s => ret { p with is_completed_ := if s = "true".toList then true else false }

/-- Lines 162-165. -/
def on_position (p : Player) (event : Str) : Outcome :=
  match unwrapEvent event with
  | .error e => ⟨p, [], .threw e⟩
  | .ok s =>
    match stoi s with
    | .error e => ⟨p, [], .threw e⟩
    | .ok v => ret { p with position_ := v }

/-- Lines 166-169. -/
def on_duration (p : Player) (event : Str) : Outcome :=
  match unwrapEvent event with
  | .error e => ⟨p, [], .threw e⟩
  | .ok s =>
    match stoi s with
    | .error e => ⟨p, [], .threw e⟩
    | .ok v => ret { p with duration_ := v }

/-- Lines 170-173. -/
def on_volume (fl : FloatLib) (p : Player) (event : Str) : Outcome :=
  match unwrapEvent event with
  | .error e => ⟨p, [], .threw e⟩
  | .ok s =>
    match fl.stof s with
    | .error e => ⟨p, [], .threw e⟩
    | .ok v => ret { p with volume_ := v }

/-- Lines 174-177. -/
def on_rate (fl : FloatLib) (p : Player) (event : Str) : Outcome :=
  match unwrapEvent event with
  | .error e => ⟨p, [], .threw e⟩
  | .ok s =>
    match fl.stof s with
    | .error e => ⟨p, [], .threw e⟩
    | .ok v => ret { p with rate_ := v }

/-- A notification arriving on a channel runs the handler bound to it. -/
def deliver (fl : FloatLib) (p : Player) (c : Channel) (event : Str) : Outcome :=
  match c with
  | .initialized => on_initialized p event
  | .isPlaying => on_isPlaying p event
  | .isBuffering => on_isBuffering p event
  | .isCompleted => on_isCompleted p event
  | .position => on_position p event
  | .duration => on_duration p event
  | .volume => on_volume fl p event
  | .rate => on_rate fl p event

end Player

/-- The scripted instructions among a list of effects, in order. -/
def instructions : List Effect → List Str
  | [] => []
  | .eval js :: es => js :: instructions es
  | _ :: es => instructions es

/-- The renderer has signalled readiness or the barrier was passed before. -/
def Player.ready (p : Player) : Prop := p.initialized_ = true ∨ p.promise_set = true

instance (p : Player) : Decidable p.ready := by unfold Player.ready; infer_instance

/-! ## The listeners of the bundled document (`kPlayerSource`, lines 104-135) -/

/-- Modelled from the spec: the bridge (the external webview library, not part
of the sources) hands a handler the text of the script-side argument inside
one layer of quoting, an opening and a closing character. -/
def quoted (opening closing : Char) (arg : Str) : Str :=
  opening :: (arg ++ [closing])

/-- The media events the document listens to.  Events whose listener passes a
number carry the text of that number. -/
inductive MediaEvent where
  | play
  | pause
  | playing
  | waiting
  | timeupdate (ms : Str)
  | durationchange (ms : Str)
  | ended
  | volumechange (volume : Str)
  | ratechange (rate : Str)
deriving DecidableEq, Repr

/-- The bridge calls each listener makes, in the order of its body
(lines 105-133), as (channel, argument text). -/
def listener : MediaEvent → List (Channel × Str)
  | .play => [(.isPlaying, "true".toList), (.isCompleted, "false".toList)]
  | .pause => [(.isPlaying, "false".toList)]
  | .playing => [(.isBuffering, "false".toList)]
  | .waiting => [(.isBuffering, "true".toList)]
  | .timeupdate ms => [(.position, ms)]
  | .durationchange ms => [(.duration, ms)]
  | .ended => [(.isPlaying, "false".toList), (.isCompleted, "true".toList)]
  | .volumechange v => [(.volume, v)]
  | .ratechange r => [(.rate, r)]

/-- Ingesting the notifications of one media event, in order.  A handler that
throws leaves the member state as it was at the throw. -/
def ingest (fl : FloatLib) (opening closing : Char) (p : Player) (e : MediaEvent) : Player :=
  (listener e).foldl
    (fun p call => (Player.deliver fl p call.1 (quoted opening closing call.2)).player) p

/-- Ingesting a sequence of media events. -/
def ingestAll (fl : FloatLib) (opening closing : Char) (p : Player)
    (es : List MediaEvent) : Player :=
  es.foldl (ingest fl opening closing) p

/-! ## The control thread and the render thread -/

/-- One public operation with its arguments. -/
inductive Op where
  | ShowWindow
  | CloseWindow
  | Open (uris : List Str) (ids : List Int)
  | Play
  | Pause
  | Stop
  | Next
  | Back
  | Jump (index : Int)
  | Seek (position : Int)
  | SetVolume (volume : Float32)
  | SetRate (rate : Float32)
deriving DecidableEq, Repr

/-- Running one operation. -/
def perform (fl : FloatLib) (p : Player) : Op → Outcome
  | .ShowWindow => p.ShowWindow
  | .CloseWindow => p.CloseWindow
  | .Open uris ids => p.Open uris ids
  | .Play => p.Play
  | .Pause => p.Pause
  | .Stop => p.Stop
  | .Next => p.Next
  | .Back => p.Back
  | .Jump index => p.Jump index
  | .Seek position => p.Seek position
  | .SetVolume volume => p.SetVolume fl volume
  | .SetRate rate => p.SetRate fl rate

/-- The two threads of section 5: the control thread runs its operations one
after the other, the render thread delivers notifications.  `program` is what
the control thread has still to run, `trace` the effects issued so far,
`halted` is set once an operation had no defined behaviour. -/
structure Sys where
  player : Player
  program : List Op
  trace : List Effect
  halted : Bool
deriving DecidableEq, Repr

/-- One scheduling step: the control thread gets its turn, or the render
thread delivers a notification. -/
inductive Tick where
  | control
  | render (c : Channel) (event : Str)
deriving DecidableEq, Repr

/-- One step.  On its turn the control thread runs the operation at the head
of its program; an operation that blocks in the wait stays at the head, an
operation that returns or throws is done (the caller goes on to the next one),
and after undefined behaviour nothing more is followed. -/
def step (fl : FloatLib) (s : Sys) : Tick → Sys
  | .control =>
    if s.halted then s
    else
      match s.program with
      | [] => s
      | op :: rest =>
        let o := perform fl s.player op
        { player := o.player
          program := if o.status = .blocked then op :: rest else rest
          trace := s.trace ++ o.emitted
          halted := decide (o.status = .undefined) }
  | .render c event =>
    if s.halted then s
    else { s with player := (Player.deliver fl s.player c event).player }

/-- Running a schedule. -/
def run (fl : FloatLib) (s : Sys) (ticks : List Tick) : Sys :=
  ticks.foldl (step fl) s

/-! ## Notions the claims are worded with -/

/-- A payload with its first and last character removed. -/
def stripped (event : Str) : Str := event.tail.dropLast

/-- A signed integer in decimal: an optional minus sign, then one digit or
more, and nothing else. -/
def isSignedInteger (s : Str) : Bool :=
  match s with
  | '-' :: ds => !ds.isEmpty && ds.all isdigit
  | ds => !ds.isEmpty && ds.all isdigit

/-- Value of a numeral given by its digits, most significant first. -/
def numeralValue : List Nat → Nat
  | [] => 0
  | d :: ds => d * 10 ^ ds.length + numeralValue ds

/-- The decimal digits a text starts with, as numbers. -/
def leadingDigits : Str → List Nat
  | [] => []
  | c :: cs => if isdigit c then (c.toNat - 48) :: leadingDigits cs else []

/-- The integer at the very start of a text: an optional sign, then one digit
or more; `none` when no digit is there. -/
def signedNumeral : Str → Option Int
  | '-' :: r =>
    if leadingDigits r = [] then none else some (-(numeralValue (leadingDigits r) : Int))
  | '+' :: r =>
    if leadingDigits r = [] then none else some (numeralValue (leadingDigits r) : Int)
  | r => if leadingDigits r = [] then none else some (numeralValue (leadingDigits r) : Int)

/-- The integer a text starts with, white space skipped. -/
def leadingInteger (s : Str) : Option Int := signedNumeral (s.dropWhile isspace)

/-- The text starts with an integer that fits `int`. -/
def startsWithInt32 (s : Str) : Bool :=
  match leadingInteger s with
  | some v => decide (isInt32 v)
  | none => false

/-! ## Auxiliary notions and sample data -/

/-- A playlist of two items, the renderer ready, the barrier not yet passed. -/
def twoItems : Player :=
  { Player.new 7 with
    media_uris_ := ["a.mp4".toList, "b.mp4".toList], media_ids_ := [1, 2], promise_set := true }

/-- A playlist of one item, the renderer ready, the barrier not yet passed. -/
def oneItem : Player :=
  { Player.new 7 with media_uris_ := ["a.mp4".toList], media_ids_ := [1], promise_set := true }

/-- The member state after `Open(["a.mp4","b.mp4"], [1,2])` on a ready renderer. -/
def opened : Player := (Player.Open twoItems ["a.mp4".toList, "b.mp4".toList] [1, 2]).player

/-- A program of two operations for the control thread. -/
def sampleProgram : List Op := [.Open ["a.mp4".toList, "b.mp4".toList] [1, 2], .Next]

/-- A schedule in which the readiness notification arrives after the control
thread has started to wait. -/
def sampleSchedule : List Tick :=
  [.control, .render .initialized "[null]".toList, .control, .control]

/-- A floating-point library that parses nothing and prints nothing. -/
def noFloats : FloatLib :=
  { stof := fun _ => .error .invalid_argument, to_string := fun _ => [] }

/-- The two flags of the invariant are not both set. -/
def exclusive (p : Player) : Prop := ¬ (p.is_playing_ = true ∧ p.is_completed_ = true)

instance (p : Player) : Decidable (exclusive p) := by unfold exclusive; infer_instance

/-- What holds of the two threads at every moment, for the program `prog` the
control thread was given: either nothing has been issued, no operation is done
and the barrier has not been passed; or the trace starts with the one wait, the
barrier is passed and the promise is fulfilled. -/
def barrierInv (prog : List Op) (s : Sys) : Prop :=
  (s.trace = [] ∧ s.program = prog ∧ s.player.initialized_ = false ∧ s.halted = false) ∨
  (∃ rest, s.trace = .wait :: rest ∧ Effect.wait ∉ rest ∧
    s.player.initialized_ = true ∧ s.player.promise_set = true)

/-! ## Lemmas on the standard-library models -/

open Player

theorem size_t_of_nonneg (i : Int) (h0 : 0 ≤ i) (h : i < 2 ^ 64) : size_t i = i.toNat := by
  unfold size_t
  rw [Int.emod_eq_of_lt h0 h]

theorem size_t_of_neg (i : Int) (h0 : i < 0) (h : -(2 ^ 64) ≤ i) :
    (size_t i : Int) = 2 ^ 64 + i := by
  unfold size_t
  have h1 : i % 2 ^ 64 = i + 2 ^ 64 := by
    rw [← Int.add_emod_self]
    exact Int.emod_eq_of_lt (by omega) (by omega)
  rw [h1]
  omega

theorem vector_at_eq_none {α : Type} (v : List α) (n : Nat) (h : v.length ≤ n) :
    vector_at v n = none := by
  unfold vector_at
  rw [if_neg (by omega)]

theorem vector_at_eq_some {α : Type} (v : List α) (n : Nat) (h : n < v.length) :
    vector_at v n = some v[n] := by
  unfold vector_at
  rw [if_pos h]
  exact List.getElem?_eq_getElem h

theorem EnsureFuture_ready (p : Player) (hr : p.ready) :
    EnsureFuture p =
      ⟨{ p with initialized_ := true }, if p.initialized_ then [] else [.wait], .ok⟩ := by
  unfold Player.ready at hr
  unfold EnsureFuture ret
  by_cases hi : p.initialized_ = true
  · simp [hi]
    cases p
    simp_all
  · rcases hr with hr | hr
    · exact absurd hr hi
    · simp [hi, hr]

theorem Jump_ready (p : Player) (i : Int) (hr : p.ready) :
    Jump p i =
      match vector_at p.media_uris_ (size_t i) with
      | none =>
        ⟨{ p with index_ := i, initialized_ := true },
          (if p.initialized_ then [] else [.wait]) ++ [.eval "player.pause();".toList],
          .threw .out_of_range⟩
      | some uri =>
        ⟨{ p with index_ := i, initialized_ := true },
          (if p.initialized_ then [] else [.wait]) ++
            [.eval "player.pause();".toList, .eval (srcScript uri), .eval "player.play();".toList],
          .ok⟩ := by
  unfold Jump
  rw [EnsureFuture_ready p hr]
  cases h : vector_at p.media_uris_ (size_t i) <;>
    simp [Pause, Play, EnsureFuture, Outcome.andThen, ret, eval, h]

theorem instructions_append (xs ys : List Effect) :
    instructions (xs ++ ys) = instructions xs ++ instructions ys := by
  induction xs with
  | nil => rfl
  | cons x xs ih => cases x <;> simp [instructions, ih]

theorem instructions_wait_or_nil (b : Bool) :
    instructions (if b = true then [] else [Effect.wait]) = [] := by
  cases b <;> rfl

theorem unwrapEvent_nil : unwrapEvent [] = .error .out_of_range := rfl

theorem unwrapEvent_of_ne_nil (event : Str) (hne : event ≠ [])
    (hsz : event.length ≤ max_size) : unwrapEvent event = .ok (stripped event) := by
  unfold max_size at hsz
  match event, hne with
  | c :: rest, _ =>
    unfold unwrapEvent substr stripped
    have h1 : ¬ (c :: rest).length < 1 := by simp
    rw [if_neg h1]
    simp only [List.drop_succ_cons, List.drop_zero, List.tail_cons, List.length_cons]
    congr 1
    rw [List.dropLast_eq_take]
    by_cases hr : rest = []
    · subst hr
      simp
    · have hpos : 0 < rest.length := List.length_pos.mpr hr
      have : size_t (((rest.length + 1 : Nat) : Int) - 2) = rest.length - 1 := by
        rw [size_t_of_nonneg _ (by omega) (by simp only [List.length_cons] at hsz; omega)]
        omega
      rw [this]

theorem unwrapEvent_quoted (l r : Char) (arg : Str) (hsz : arg.length + 2 ≤ max_size) :
    unwrapEvent (quoted l r arg) = .ok arg := by
  rw [unwrapEvent_of_ne_nil _ (by simp [quoted]) (by simp [quoted]; omega)]
  simp [stripped, quoted]

theorem leadingDigits_eq (r : Str) :
    leadingDigits r = (r.takeWhile isdigit).map (fun c => c.toNat - 48) := by
  induction r with
  | nil => rfl
  | cons c cs ih =>
    by_cases h : isdigit c = true
    · simp [leadingDigits, List.takeWhile_cons, h, ih]
    · simp [leadingDigits, List.takeWhile_cons, h]

theorem foldl_digits (ds : List Char) (acc : Nat) :
    ds.foldl (fun acc c => 10 * acc + (c.toNat - 48)) acc =
      acc * 10 ^ ds.length + numeralValue (ds.map (fun c => c.toNat - 48)) := by
  induction ds generalizing acc with
  | nil => simp [numeralValue]
  | cons d ds ih =>
    simp only [List.foldl_cons, List.length_cons, List.map_cons, numeralValue, List.length_map]
    rw [ih]
    ring

theorem digitsValue_takeWhile (r : Str) :
    digitsValue (r.takeWhile isdigit) = numeralValue (leadingDigits r) := by
  rw [leadingDigits_eq]
  unfold digitsValue
  rw [foldl_digits]
  simp

theorem takeWhile_nil_iff (r : Str) : r.takeWhile isdigit = [] ↔ leadingDigits r = [] := by
  rw [leadingDigits_eq]
  simp

theorem rangeCheck_eq (v : Int) :
    (if v < INT32_MIN ∨ INT32_MAX < v then (.error .out_of_range : Except Exn Int) else .ok v) =
      if isInt32 v then .ok v else .error .out_of_range := by
  unfold isInt32
  by_cases h : INT32_MIN ≤ v ∧ v ≤ INT32_MAX
  · rw [if_pos h, if_neg (by omega)]
  · rw [if_neg h, if_pos (by omega)]

theorem signedNumeral_other (t : Str) (hm : t.head? ≠ some '-') (hp : t.head? ≠ some '+') :
    signedNumeral t =
      if leadingDigits t = [] then none else some (numeralValue (leadingDigits t) : Int) := by
  unfold signedNumeral
  split
  · simp at hm
  · simp at hp
  · rfl

/-- What `stoi` returns, read off the integer the text starts with. -/
theorem stoi_eq (s : Str) :
    stoi s =
      match leadingInteger s with
      | none => .error .invalid_argument
      | some v => if isInt32 v then .ok v else .error .out_of_range := by
  unfold stoi leadingInteger
  simp only
  generalize s.dropWhile isspace = t
  by_cases hm : t.head? = some '-'
  · obtain ⟨r, rfl⟩ : ∃ r, t = '-' :: r := by
      cases t with
      | nil => simp at hm
      | cons c r => exact ⟨r, by simp at hm; rw [hm]⟩
    simp only [List.head?_cons, true_or, if_true, List.tail_cons, decide_True,
      digitsValue_takeWhile, takeWhile_nil_iff, signedNumeral]
    by_cases hd : leadingDigits r = []
    · simp [hd]
    · simp only [hd, if_false]
      exact rangeCheck_eq _
  · by_cases hp : t.head? = some '+'
    · obtain ⟨r, rfl⟩ : ∃ r, t = '+' :: r := by
        cases t with
        | nil => simp at hp
        | cons c r => exact ⟨r, by simp at hp; rw [hp]⟩
      simp only [hm, List.head?_cons, or_true, if_true, List.tail_cons, decide_False,
        digitsValue_takeWhile, takeWhile_nil_iff, signedNumeral]
      by_cases hd : leadingDigits r = []
      · simp [hd]
      · simp only [hd, if_false, Bool.false_eq_true]
        exact rangeCheck_eq _
    · rw [signedNumeral_other t hm hp]
      simp only [hm, hp, or_self, if_false, decide_False, digitsValue_takeWhile,
        takeWhile_nil_iff]
      by_cases hd : leadingDigits t = []
      · simp [hd]
      · simp only [hd, if_false, Bool.false_eq_true]
        exact rangeCheck_eq _

/-! ## Lemmas on the operations and the handlers -/

theorem Jump_blocked (p : Player) (i : Int) (hr : ¬ p.ready) :
    Jump p i = ⟨p, [], .blocked⟩ := by
  unfold Player.ready at hr
  simp only [not_or, Bool.not_eq_true] at hr
  simp [Jump, EnsureFuture, Outcome.andThen, hr.1, hr.2]

theorem Next_eq_Jump (p : Player) (h : p.index_ + 1 ≤ INT32_MAX) :
    Next p = Jump p (p.index_ + 1) := by
  by_cases hr : p.ready
  · have hov : ¬ INT32_MAX < p.index_ + 1 := by omega
    unfold Next
    rw [EnsureFuture_ready p hr]
    simp only [Outcome.andThen, if_neg hov]
    rw [Jump_ready _ _ (Or.inl rfl), Jump_ready p _ hr]
    cases vector_at p.media_uris_ (size_t (p.index_ + 1)) <;> simp
  · rw [Jump_blocked p _ hr]
    unfold Player.ready at hr
    simp only [not_or, Bool.not_eq_true] at hr
    simp [Next, EnsureFuture, Outcome.andThen, hr.1, hr.2]

theorem Back_eq_Jump (p : Player) (h : INT32_MIN ≤ p.index_ - 1) :
    Back p = Jump p (p.index_ - 1) := by
  by_cases hr : p.ready
  · have hov : ¬ p.index_ - 1 < INT32_MIN := by omega
    unfold Back
    rw [EnsureFuture_ready p hr]
    simp only [Outcome.andThen, if_neg hov]
    rw [Jump_ready _ _ (Or.inl rfl), Jump_ready p _ hr]
    cases vector_at p.media_uris_ (size_t (p.index_ - 1)) <;> simp
  · rw [Jump_blocked p _ hr]
    unfold Player.ready at hr
    simp only [not_or, Bool.not_eq_true] at hr
    simp [Back, EnsureFuture, Outcome.andThen, hr.1, hr.2]

theorem Open_ready (p : Player) (uris : List Str) (ids : List Int) (hr : p.ready)
    (u0 : Str) (rest : List Str) (hu : uris = u0 :: rest) :
    Open p uris ids =
      ⟨{ p with index_ := 0, media_ids_ := ids, media_uris_ := uris, initialized_ := true },
        (if p.initialized_ then [] else [.wait]) ++ [.eval (srcScript u0)], .ok⟩ := by
  unfold Open
  rw [EnsureFuture_ready p hr]
  subst hu
  simp [Outcome.andThen, eval]

theorem on_initialized_frame (p : Player) (event : Str) :
    (on_initialized p event).player =
      { p with promise_set := (on_initialized p event).player.promise_set } ∧
    (on_initialized p event).emitted = [] := by
  unfold on_initialized
  split <;> simp [ret]

theorem on_isPlaying_frame (p : Player) (event : Str) :
    (on_isPlaying p event).player =
      { p with is_playing_ := (on_isPlaying p event).player.is_playing_ } ∧
    (on_isPlaying p event).emitted = [] := by
  unfold on_isPlaying
  split <;> simp [ret]

theorem on_isBuffering_frame (p : Player) (event : Str) :
    (on_isBuffering p event).player =
      { p with is_buffering_ := (on_isBuffering p event).player.is_buffering_ } ∧
    (on_isBuffering p event).emitted = [] := by
  unfold on_isBuffering
  split <;> simp [ret]

theorem on_isCompleted_frame (p : Player) (event : Str) :
    (on_isCompleted p event).player =
      { p with is_completed_ := (on_isCompleted p event).player.is_completed_ } ∧
    (on_isCompleted p event).emitted = [] := by
  unfold on_isCompleted
  split <;> simp [ret]

theorem on_position_frame (p : Player) (event : Str) :
    (on_position p event).player =
      { p with position_ := (on_position p event).player.position_ } ∧
    (on_position p event).emitted = [] := by
  unfold on_position
  split
  · simp
  · split <;> simp [ret]

theorem on_duration_frame (p : Player) (event : Str) :
    (on_duration p event).player =
      { p with duration_ := (on_duration p event).player.duration_ } ∧
    (on_duration p event).emitted = [] := by
  unfold on_duration
  split
  · simp
  · split <;> simp [ret]

theorem on_volume_frame (fl : FloatLib) (p : Player) (event : Str) :
    (on_volume fl p event).player =
      { p with volume_ := (on_volume fl p event).player.volume_ } ∧
    (on_volume fl p event).emitted = [] := by
  unfold on_volume
  split
  · simp
  · split <;> simp [ret]

theorem on_rate_frame (fl : FloatLib) (p : Player) (event : Str) :
    (on_rate fl p event).player =
      { p with rate_ := (on_rate fl p event).player.rate_ } ∧
    (on_rate fl p event).emitted = [] := by
  unfold on_rate
  split
  · simp
  · split <;> simp [ret]

theorem on_isPlaying_true (l r : Char) (p : Player) :
    on_isPlaying p (quoted l r "true".toList) = ret { p with is_playing_ := true } := rfl

theorem on_isPlaying_false (l r : Char) (p : Player) :
    on_isPlaying p (quoted l r "false".toList) = ret { p with is_playing_ := false } := rfl

theorem on_isCompleted_true (l r : Char) (p : Player) :
    on_isCompleted p (quoted l r "true".toList) = ret { p with is_completed_ := true } := rfl

theorem on_isCompleted_false (l r : Char) (p : Player) :
    on_isCompleted p (quoted l r "false".toList) = ret { p with is_completed_ := false } := rfl

theorem ingest_exclusive (fl : FloatLib) (l r : Char) (p : Player) (e : MediaEvent)
    (h : exclusive p) : exclusive (ingest fl l r p e) := by
  unfold exclusive at h ⊢
  cases e with
  | play =>
    simp only [ingest, listener, deliver, List.foldl, on_isPlaying_true, on_isCompleted_false, ret]
    simp
  | pause =>
    simp only [ingest, listener, deliver, List.foldl, on_isPlaying_false, ret]
    simp
  | playing =>
    simp only [ingest, listener, deliver, List.foldl]
    rw [(on_isBuffering_frame p _).1]
    exact h
  | waiting =>
    simp only [ingest, listener, deliver, List.foldl]
    rw [(on_isBuffering_frame p _).1]
    exact h
  | timeupdate ms =>
    simp only [ingest, listener, deliver, List.foldl]
    rw [(on_position_frame p _).1]
    exact h
  | durationchange ms =>
    simp only [ingest, listener, deliver, List.foldl]
    rw [(on_duration_frame p _).1]
    exact h
  | ended =>
    simp only [ingest, listener, deliver, List.foldl, on_isPlaying_false, on_isCompleted_true, ret]
    simp
  | volumechange v =>
    simp only [ingest, listener, deliver, List.foldl]
    rw [(on_volume_frame fl p _).1]
    exact h
  | ratechange v =>
    simp only [ingest, listener, deliver, List.foldl]
    rw [(on_rate_frame fl p _).1]
    exact h

theorem perform_blocked (fl : FloatLib) (p : Player) (op : Op)
    (hi : p.initialized_ = false) (hp : p.promise_set = false) :
    perform fl p op = ⟨p, [], .blocked⟩ := by
  cases op <;>
    simp [perform, ShowWindow, CloseWindow, Open, Play, Pause, Stop, Next, Back, Jump, Seek,
      SetVolume, SetRate, EnsureFuture, Outcome.andThen, hi, hp]

theorem perform_first (fl : FloatLib) (p : Player) (op : Op)
    (hi : p.initialized_ = false) (hp : p.promise_set = true) :
    perform fl p op =
      ⟨(perform fl { p with initialized_ := true } op).player,
        .wait :: (perform fl { p with initialized_ := true } op).emitted,
        (perform fl { p with initialized_ := true } op).status⟩ := by
  cases op <;>
    simp [perform, ShowWindow, CloseWindow, Open, Play, Pause, Stop, Next, Back, Jump, Seek,
      SetVolume, SetRate, EnsureFuture, Outcome.andThen, hi, hp, ret]

theorem Jump_initialized (p : Player) (i : Int) (hi : p.initialized_ = true) :
    Effect.wait ∉ (Jump p i).emitted ∧ (Jump p i).player.initialized_ = true ∧
      (Jump p i).player.promise_set = p.promise_set ∧ (Jump p i).status ≠ .blocked := by
  rw [Jump_ready p i (Or.inl hi)]
  cases vector_at p.media_uris_ (size_t i) <;> simp [hi]

theorem perform_initialized (fl : FloatLib) (p : Player) (op : Op)
    (hi : p.initialized_ = true) :
    Effect.wait ∉ (perform fl p op).emitted ∧ (perform fl p op).player.initialized_ = true ∧
      (perform fl p op).player.promise_set = p.promise_set ∧
      (perform fl p op).status ≠ .blocked := by
  cases op with
  | Jump i => exact Jump_initialized p i hi
  | Next =>
    simp only [perform, Next, EnsureFuture, hi, ret, Outcome.andThen, if_true, List.nil_append]
    split
    · simp [hi]
    · exact Jump_initialized _ _ rfl
  | Back =>
    simp only [perform, Back, EnsureFuture, hi, ret, Outcome.andThen, if_true, List.nil_append]
    split
    · simp [hi]
    · exact Jump_initialized _ _ rfl
  | Open uris ids =>
    cases uris <;> simp [perform, Open, EnsureFuture, Outcome.andThen, hi, ret, eval]
  | _ =>
    simp [perform, ShowWindow, CloseWindow, Play, Pause, Stop, Seek,
      SetVolume, SetRate, EnsureFuture, Outcome.andThen, hi, ret, eval]

theorem deliver_barrier (fl : FloatLib) (p : Player) (c : Channel) (event : Str) :
    (deliver fl p c event).player.initialized_ = p.initialized_ ∧
      (p.promise_set = true → (deliver fl p c event).player.promise_set = true) := by
  cases c
  · simp only [deliver, on_initialized]
    split <;> simp_all [ret]
  · unfold deliver; rw [(on_isPlaying_frame p event).1]; simp
  · unfold deliver; rw [(on_isBuffering_frame p event).1]; simp
  · unfold deliver; rw [(on_isCompleted_frame p event).1]; simp
  · unfold deliver; rw [(on_position_frame p event).1]; simp
  · unfold deliver; rw [(on_duration_frame p event).1]; simp
  · unfold deliver; rw [(on_volume_frame fl p event).1]; simp
  · unfold deliver; rw [(on_rate_frame fl p event).1]; simp

theorem step_barrierInv (fl : FloatLib) (prog : List Op) (s : Sys) (t : Tick)
    (h : barrierInv prog s) : barrierInv prog (step fl s t) := by
  cases t with
  | control =>
    unfold step
    by_cases hh : s.halted = true
    · simpa [hh] using h
    · simp only [hh, Bool.false_eq_true, if_false]
      cases hprog : s.program with
      | nil => simpa using h
      | cons op rest =>
        simp only
        rcases h with ⟨ht, hp, hi, _⟩ | ⟨tr, ht, hw, hi, hp⟩
        · by_cases hps : s.player.promise_set = true
          · right
            rw [perform_first fl _ op hi hps]
            have h1 := perform_initialized fl { s.player with initialized_ := true } op rfl
            exact ⟨_, by simp [ht], h1.1, h1.2.1, by rw [h1.2.2.1]; exact hps⟩
          · left
            rw [perform_blocked fl _ op hi (by simpa using hps)]
            simp [ht, hi, ← hp, hprog]
        · right
          have h1 := perform_initialized fl s.player op hi
          refine ⟨tr ++ (perform fl s.player op).emitted, by simp [ht], ?_, h1.2.1,
            by rw [h1.2.2.1]; exact hp⟩
          simp only [List.mem_append, not_or]
          exact ⟨hw, h1.1⟩
  | render c event =>
    unfold step
    by_cases hh : s.halted = true
    · simpa [hh] using h
    · simp only [hh, Bool.false_eq_true, if_false]
      have hd := deliver_barrier fl s.player c event
      rcases h with ⟨ht, hp, hi, hl⟩ | ⟨tr, ht, hw, hi, hp⟩
      · left
        exact ⟨ht, hp, by rw [hd.1]; exact hi, rfl⟩
      · right
        exact ⟨tr, ht, hw, by rw [hd.1]; exact hi, hd.2 hp⟩

theorem run_barrierInv (fl : FloatLib) (prog : List Op) (ticks : List Tick) (s : Sys)
    (h : barrierInv prog s) : barrierInv prog (run fl s ticks) := by
  induction ticks generalizing s with
  | nil => exact h
  | cons t ts ih => exact ih _ (step_barrierInv fl prog s t h)

theorem perform_ready (fl : FloatLib) (q : Player) (op : Op) (hr : q.ready) :
    (perform fl q op).status ≠ .blocked ∧ (perform fl q op).player.initialized_ = true := by
  by_cases hi : q.initialized_ = true
  · exact ⟨(perform_initialized fl q op hi).2.2.2, (perform_initialized fl q op hi).2.1⟩
  · have hp : q.promise_set = true := by
      rcases hr with h | h
      · exact absurd h hi
      · exact h
    rw [perform_first fl q op (by simpa using hi) hp]
    have h1 := perform_initialized fl { q with initialized_ := true } op rfl
    exact ⟨h1.2.2.2, h1.2.1⟩

theorem Jump_not_undefined (q : Player) (i : Int) : (Jump q i).status ≠ .undefined := by
  by_cases hr : q.ready
  · rw [Jump_ready q i hr]
    cases vector_at q.media_uris_ (size_t i) <;> simp
  · rw [Jump_blocked q i hr]
    simp

theorem perform_undefined (fl : FloatLib) (q : Player) (op : Op)
    (h : (perform fl q op).status = .undefined) :
    (∃ ids, op = .Open [] ids) ∨ (op = .Next ∧ INT32_MAX < q.index_ + 1) ∨
      (op = .Back ∧ q.index_ - 1 < INT32_MIN) := by
  by_cases hr : q.ready
  · cases op with
    | Jump i => exact absurd h (Jump_not_undefined q i)
    | Next =>
      right; left
      refine ⟨rfl, ?_⟩
      by_contra hov
      simp only [perform, Next, EnsureFuture_ready q hr, Outcome.andThen, if_neg hov] at h
      exact Jump_not_undefined _ _ h
    | Back =>
      right; right
      refine ⟨rfl, ?_⟩
      by_contra hov
      simp only [perform, Back, EnsureFuture_ready q hr, Outcome.andThen, if_neg hov] at h
      exact Jump_not_undefined _ _ h
    | Open uris ids =>
      left
      cases uris with
      | nil => exact ⟨ids, rfl⟩
      | cons u0 rest =>
        simp only [perform] at h
        rw [Open_ready q _ ids hr u0 rest rfl] at h
        simp at h
    | _ =>
      simp [perform, ShowWindow, CloseWindow, Play, Pause, Stop, Seek, SetVolume, SetRate,
        EnsureFuture_ready q hr, Outcome.andThen, eval] at h
  · have hb : perform fl q op = ⟨q, [], .blocked⟩ := by
      unfold Player.ready at hr
      simp only [not_or, Bool.not_eq_true] at hr
      exact perform_blocked fl q op hr.1 hr.2
    rw [hb] at h
    simp at h

theorem run_halted (fl : FloatLib) (ticks : List Tick) (s : Sys) (h : s.halted = true) :
    run fl s ticks = s := by
  induction ticks with
  | nil => rfl
  | cons t ts ih =>
    have hstep : step fl s t = s := by
      cases t <;> simp [step, h]
    show run fl (step fl s t) ts = s
    rw [hstep]
    exact ih

theorem run_control_completes (fl : FloatLib) (prog : List Op) (s : Sys)
    (hr : s.player.ready) (hh : s.halted = false) (hp : s.program = prog) :
    (run fl s (List.replicate prog.length .control)).halted = true ∨
      (run fl s (List.replicate prog.length .control)).program = [] := by
  induction prog generalizing s with
  | nil => exact Or.inr hp
  | cons op rest ih =>
    have h1 := perform_ready fl s.player op hr
    have hs : step fl s .control =
        ⟨(perform fl s.player op).player, rest, s.trace ++ (perform fl s.player op).emitted,
          decide ((perform fl s.player op).status = .undefined)⟩ := by
      simp [step, hh, hp, h1.1]
    show (run fl (step fl s .control) (List.replicate rest.length .control)).halted = true ∨
      (run fl (step fl s .control) (List.replicate rest.length .control)).program = []
    rw [hs]
    by_cases hu : (perform fl s.player op).status = .undefined
    · left
      rw [run_halted fl _ _ (by simp [hu])]
      simp [hu]
    · exact ih _ (Or.inl h1.2) (by simp [hu]) rfl

/-- On a non-empty payload a boolean handler returns normally, its flag set by
comparing the payload without its first and last character with `true`. -/
theorem payload_nonempty (p : Player) (event : Str) (hne : event ≠ [])
    (hsz : event.length ≤ max_size) :
    on_isPlaying p event =
      ⟨{ p with is_playing_ := decide (stripped event = "true".toList) }, [], .ok⟩ ∧
    on_isBuffering p event =
      ⟨{ p with is_buffering_ := decide (stripped event = "true".toList) }, [], .ok⟩ ∧
    on_isCompleted p event =
      ⟨{ p with is_completed_ := decide (stripped event = "true".toList) }, [], .ok⟩ := by
  refine ⟨?_, ?_, ?_⟩
  · simp only [on_isPlaying, unwrapEvent_of_ne_nil event hne hsz, ret]
    by_cases h : stripped event = "true".toList <;> simp [h]
  · simp only [on_isBuffering, unwrapEvent_of_ne_nil event hne hsz, ret]
    by_cases h : stripped event = "true".toList <;> simp [h]
  · simp only [on_isCompleted, unwrapEvent_of_ne_nil event hne hsz, ret]
    by_cases h : stripped event = "true".toList <;> simp [h]

/-- The empty string, which has no layer of quoting and which the bridge does
not deliver, makes `substr(1, ...)` throw in the boolean handlers. -/
theorem empty_payload_throws :
    (on_isPlaying (Player.new 0) []).status = .threw .out_of_range ∧
    (on_isBuffering (Player.new 0) []).status = .threw .out_of_range ∧
    (on_isCompleted (Player.new 0) []).status = .threw .out_of_range := by
  decide

/-! ## The claims -/

/-- Claim C1.  Once the renderer has signalled readiness, `Jump(i)` with an
`int32_t` index `0 ≤ i < size()` returns normally, leaves `index_ = i` (and all
other members but `initialized_` as they were), and the scripted instructions it
issues are exactly three, in this order: `player.pause();`, then
`player.src = encodeURI('` followed by `uris[i]` and `');`, then
`player.play();`.  Besides them only the barrier wait of a first call is
issued. -/
theorem Jump_valid_index (p : Player) (i : Int) (hr : p.ready) (h32 : isInt32 i)
    (h0 : 0 ≤ i) (hlen : i < p.media_uris_.length) :
    ∃ uri, p.media_uris_[i.toNat]? = some uri ∧
      (Jump p i).status = .ok ∧
      (Jump p i).player.index_ = i ∧
      (Jump p i).player = { p with index_ := i, initialized_ := true } ∧
      instructions (Jump p i).emitted =
        ["player.pause();".toList,
          "player.src = encodeURI('".toList ++ uri ++ "');".toList,
          "player.play();".toList] ∧
      (Jump p i).emitted = (if p.initialized_ then [] else [.wait]) ++
        [.eval "player.pause();".toList,
          .eval ("player.src = encodeURI('".toList ++ uri ++ "');".toList),
          .eval "player.play();".toList] := by
  have hs : size_t i = i.toNat :=
    size_t_of_nonneg i h0 (by unfold isInt32 INT32_MAX at h32; omega)
  have hlt : i.toNat < p.media_uris_.length := by omega
  refine ⟨p.media_uris_[i.toNat], List.getElem?_eq_getElem hlt, ?_⟩
  rw [Jump_ready p i hr, hs, vector_at_eq_some _ _ hlt]
  simp [instructions_append, instructions_wait_or_nil, instructions, srcScript]

theorem Jump_valid_index_witness :
    (twoItems.ready ∧ isInt32 1 ∧ (0 : Int) ≤ 1 ∧ (1 : Int) < twoItems.media_uris_.length) ∧
    (∃ uri, twoItems.media_uris_[(1 : Int).toNat]? = some uri ∧
      (Jump twoItems 1).status = .ok ∧
      (Jump twoItems 1).player.index_ = 1 ∧
      (Jump twoItems 1).player = { twoItems with index_ := 1, initialized_ := true } ∧
      instructions (Jump twoItems 1).emitted =
        ["player.pause();".toList,
          "player.src = encodeURI('".toList ++ uri ++ "');".toList,
          "player.play();".toList] ∧
      (Jump twoItems 1).emitted = (if twoItems.initialized_ then [] else [.wait]) ++
        [.eval "player.pause();".toList,
          .eval ("player.src = encodeURI('".toList ++ uri ++ "');".toList),
          .eval "player.play();".toList]) ∧
    (Jump twoItems 1).emitted =
      [.wait, .eval "player.pause();".toList,
        .eval "player.src = encodeURI('b.mp4');".toList, .eval "player.play();".toList] :=
  ⟨by decide, Jump_valid_index twoItems 1 (by decide) (by decide) (by decide) (by decide),
    by decide⟩

/-- Claim C2, refuted as stated: with two items and `index_` at the last one,
`Next()` throws `out_of_range` and leaves `index_ = 2`, not 1; with `index_`
at 0, `Back()` throws and leaves `index_ = -1`, not 0. -/
theorem failed_Next_Back_move_index :
    twoItems.media_uris_ ≠ [] ∧
    ((Next { twoItems with index_ := 1 }).status = .threw .out_of_range ∧
      (Next { twoItems with index_ := 1 }).player.index_ = 2) ∧
    ((Back { twoItems with index_ := 0 }).status = .threw .out_of_range ∧
      (Back { twoItems with index_ := 0 }).player.index_ = -1) := by
  decide

/-- Claim C2, amended.  With the renderer ready and a non-empty playlist of at
most `INT32_MAX` items, `Next()` at the last index and `Back()` at index 0 both
throw `out_of_range` after issuing the pause instruction only; `index_` is left
at the index that was looked up, `size()` after `Next()` and `-1` after
`Back()`, and the playlist is as it was.  (An empty playlist with `index_ = -1`
is covered as well.) -/
theorem Next_Back_at_end (p : Player) (hr : p.ready)
    (hsz : (p.media_uris_.length : Int) ≤ INT32_MAX) :
    (p.index_ = (p.media_uris_.length : Int) - 1 →
      (Next p).status = .threw .out_of_range ∧
      (Next p).player = { p with index_ := p.media_uris_.length, initialized_ := true } ∧
      instructions (Next p).emitted = ["player.pause();".toList]) ∧
    (p.index_ = 0 →
      (Back p).status = .threw .out_of_range ∧
      (Back p).player = { p with index_ := -1, initialized_ := true } ∧
      instructions (Back p).emitted = ["player.pause();".toList]) := by
  have hr1 : ∀ j : Int, ({ p with initialized_ := true, index_ := j } : Player).ready :=
    fun _ => Or.inl rfl
  constructor
  · intro hi
    have hov : ¬ INT32_MAX < p.index_ + 1 := by omega
    have hs : size_t (p.index_ + 1) = p.media_uris_.length := by
      rw [size_t_of_nonneg _ (by omega) (by unfold INT32_MAX at hsz; omega)]
      omega
    unfold Next
    rw [EnsureFuture_ready p hr]
    simp only [Outcome.andThen, if_neg hov]
    rw [Jump_ready _ _ (hr1 _)]
    simp only [hs, vector_at_eq_none _ _ (le_refl _)]
    simp [instructions_append, instructions_wait_or_nil, instructions, hi]
  · intro hi
    have hov : ¬ p.index_ - 1 < INT32_MIN := by unfold INT32_MIN; omega
    have hs : p.media_uris_.length ≤ size_t (p.index_ - 1) := by
      have := size_t_of_neg (p.index_ - 1) (by omega) (by omega)
      unfold INT32_MAX at hsz
      omega
    unfold Back
    rw [EnsureFuture_ready p hr]
    simp only [Outcome.andThen, if_neg hov]
    rw [Jump_ready _ _ (hr1 _)]
    simp only [vector_at_eq_none _ _ hs]
    simp [instructions_append, instructions_wait_or_nil, instructions, hi]

theorem Next_Back_at_end_witness :
    (oneItem.index_ = (oneItem.media_uris_.length : Int) - 1 ∧
      (Next oneItem).status = .threw .out_of_range ∧
      (Next oneItem).player =
        { oneItem with index_ := oneItem.media_uris_.length, initialized_ := true } ∧
      instructions (Next oneItem).emitted = ["player.pause();".toList]) ∧
    (oneItem.index_ = 0 ∧
      (Back oneItem).status = .threw .out_of_range ∧
      (Back oneItem).player = { oneItem with index_ := -1, initialized_ := true } ∧
      instructions (Back oneItem).emitted = ["player.pause();".toList]) :=
  ⟨⟨by decide, (Next_Back_at_end oneItem (by decide) (by decide)).1 (by decide)⟩,
    ⟨by decide, (Next_Back_at_end oneItem (by decide) (by decide)).2 (by decide)⟩⟩

/-- Claim C3.  When `index_ + 1` and `index_ - 1` fit `int32_t`, `Next()` is
`Jump(index_ + 1)` and `Back()` is `Jump(index_ - 1)`: the same member state
afterwards, the same effects in the same order, the same status.  In
particular, after `Open(uris, ids)` with two items or more on a ready renderer,
`Next()` is `Jump(1)`, and a `Back()` right after it is `Jump(0)`. -/
theorem Next_Back_refine_Jump (p : Player)
    (hn : isInt32 (p.index_ + 1)) (hb : isInt32 (p.index_ - 1)) :
    Next p = Jump p (p.index_ + 1) ∧
    Back p = Jump p (p.index_ - 1) ∧
    ∀ (uris : List Str) (ids : List Int), p.ready → 2 ≤ uris.length →
      Next (Open p uris ids).player = Jump (Open p uris ids).player 1 ∧
      (Next (Open p uris ids).player).status = .ok ∧
      Back (Next (Open p uris ids).player).player =
        Jump (Next (Open p uris ids).player).player 0 := by
  refine ⟨Next_eq_Jump p hn.2, Back_eq_Jump p hb.1, ?_⟩
  intro uris ids hr hlen
  match uris, hlen with
  | u0 :: u1 :: rest, _ =>
    rw [Open_ready p _ ids hr u0 (u1 :: rest) rfl]
    have h1 := Next_eq_Jump
      { p with index_ := 0, media_ids_ := ids, media_uris_ := u0 :: u1 :: rest,
               initialized_ := true } (by simp [INT32_MAX])
    simp only [zero_add] at h1
    have hj := Jump_ready
      { p with index_ := 0, media_ids_ := ids, media_uris_ := u0 :: u1 :: rest,
               initialized_ := true } 1 (Or.inl rfl)
    have hv : vector_at (u0 :: u1 :: rest) (size_t 1) = some u1 := by
      rw [show size_t 1 = 1 from rfl]
      exact vector_at_eq_some _ 1 (by simp)
    simp only [hv] at hj
    refine ⟨h1, ?_, ?_⟩
    · rw [h1, hj]
    · rw [h1, hj]
      exact Back_eq_Jump _ (by simp [INT32_MIN])

theorem Next_Back_refine_Jump_witness :
    (isInt32 (twoItems.index_ + 1) ∧ isInt32 (twoItems.index_ - 1)) ∧
    Next twoItems = Jump twoItems (twoItems.index_ + 1) ∧
    Back twoItems = Jump twoItems (twoItems.index_ - 1) ∧
    (twoItems.ready ∧ 2 ≤ ["a.mp4".toList, "b.mp4".toList].length) ∧
    Next (Open twoItems ["a.mp4".toList, "b.mp4".toList] [1, 2]).player =
      Jump (Open twoItems ["a.mp4".toList, "b.mp4".toList] [1, 2]).player 1 ∧
    (Next (Open twoItems ["a.mp4".toList, "b.mp4".toList] [1, 2]).player).status = .ok ∧
    Back (Next (Open twoItems ["a.mp4".toList, "b.mp4".toList] [1, 2]).player).player =
      Jump (Next (Open twoItems ["a.mp4".toList, "b.mp4".toList] [1, 2]).player).player 0 :=
  ⟨by decide,
    (Next_Back_refine_Jump twoItems (by decide) (by decide)).1,
    (Next_Back_refine_Jump twoItems (by decide) (by decide)).2.1,
    by decide,
    (Next_Back_refine_Jump twoItems (by decide) (by decide)).2.2
      ["a.mp4".toList, "b.mp4".toList] [1, 2] (by decide) (by decide)⟩

/-- Claim C4.  With the renderer ready and `uris` non-empty, whatever the
members held before (and whether or not `ids` is as long as `uris`),
`Open(uris, ids)` returns normally with `media_uris_ = uris`, `media_ids_ = ids`
and `index_ = 0`.  The one scripted instruction it issues is
`player.src = encodeURI('` followed by `uris[0]` and `');`; besides it only the
barrier wait of a first call is issued, so there is no play instruction, and
`is_playing_` and every other mirrored field keep their values. -/
theorem Open_cues_first_item (p : Player) (uris : List Str) (ids : List Int)
    (hr : p.ready) (hne : uris ≠ []) :
    ∃ first, uris[0]? = some first ∧
      (Open p uris ids).status = .ok ∧
      (Open p uris ids).player =
        { p with index_ := 0, media_ids_ := ids, media_uris_ := uris, initialized_ := true } ∧
      instructions (Open p uris ids).emitted =
        ["player.src = encodeURI('".toList ++ first ++ "');".toList] ∧
      (Open p uris ids).emitted =
        (if p.initialized_ then [] else [.wait]) ++
          [.eval ("player.src = encodeURI('".toList ++ first ++ "');".toList)] ∧
      Effect.eval "player.play();".toList ∉ (Open p uris ids).emitted ∧
      (Open p uris ids).player.is_playing_ = p.is_playing_ := by
  match uris, hne with
  | u0 :: rest, _ =>
    refine ⟨u0, List.getElem?_cons_zero, ?_⟩
    rw [Open_ready p _ ids hr u0 rest rfl]
    refine ⟨rfl, rfl, ?_, rfl, ?_, rfl⟩
    · simp [instructions_append, instructions_wait_or_nil, instructions, srcScript]
    · have hsrc : srcScript u0 ≠ "player.play();".toList := by
        intro h
        have h2 := congrArg (fun l => l.get? 7) h
        simp [srcScript] at h2
      have hsrc2 : ¬ "player.play();".toList = srcScript u0 := fun h => hsrc h.symm
      cases p.initialized_ <;> simpa using hsrc2

theorem Open_cues_first_item_witness :
    (twoItems.ready ∧ ["a.mp4".toList, "b.mp4".toList] ≠ []) ∧
    (∃ first, ["a.mp4".toList, "b.mp4".toList][0]? = some first ∧
      (Open twoItems ["a.mp4".toList, "b.mp4".toList] [1, 2]).status = .ok ∧
      (Open twoItems ["a.mp4".toList, "b.mp4".toList] [1, 2]).player =
        { twoItems with index_ := 0, media_ids_ := [1, 2],
                        media_uris_ := ["a.mp4".toList, "b.mp4".toList],
                        initialized_ := true } ∧
      instructions (Open twoItems ["a.mp4".toList, "b.mp4".toList] [1, 2]).emitted =
        ["player.src = encodeURI('".toList ++ first ++ "');".toList] ∧
      (Open twoItems ["a.mp4".toList, "b.mp4".toList] [1, 2]).emitted =
        (if twoItems.initialized_ then [] else [.wait]) ++
          [.eval ("player.src = encodeURI('".toList ++ first ++ "');".toList)] ∧
      Effect.eval "player.play();".toList ∉
        (Open twoItems ["a.mp4".toList, "b.mp4".toList] [1, 2]).emitted ∧
      (Open twoItems ["a.mp4".toList, "b.mp4".toList] [1, 2]).player.is_playing_ =
        twoItems.is_playing_) ∧
    (Open twoItems ["a.mp4".toList, "b.mp4".toList] [1, 2]).emitted =
      [.wait, .eval "player.src = encodeURI('a.mp4');".toList] :=
  ⟨by decide,
    Open_cues_first_item twoItems ["a.mp4".toList, "b.mp4".toList] [1, 2] (by decide)
      (by decide),
    by decide⟩

/-- Claim C5.  With the renderer ready, an `int32_t` index `i` and a playlist
within `max_size()`, `Jump(i)` throws `out_of_range` exactly when `i < 0` or
`i ≥ size()`, and returns normally otherwise.  When it throws, the only
scripted instruction issued is the pause: no source is set and no play is
issued; the playlist is unchanged. -/
theorem Jump_out_of_range_iff (p : Player) (i : Int) (hr : p.ready) (h32 : isInt32 i)
    (hsz : p.media_uris_.length ≤ max_size) :
    ((Jump p i).status = .threw .out_of_range ↔ (i < 0 ∨ (p.media_uris_.length : Int) ≤ i)) ∧
    ((Jump p i).status ≠ .threw .out_of_range → (Jump p i).status = .ok) ∧
    ((Jump p i).status = .threw .out_of_range →
      instructions (Jump p i).emitted = ["player.pause();".toList] ∧
      (Jump p i).player.media_uris_ = p.media_uris_ ∧
      (Jump p i).player.media_ids_ = p.media_ids_) := by
  have hj := Jump_ready p i hr
  unfold isInt32 INT32_MIN INT32_MAX at h32
  unfold max_size at hsz
  by_cases hin : 0 ≤ i ∧ i < p.media_uris_.length
  · have hs : size_t i = i.toNat := size_t_of_nonneg i hin.1 (by omega)
    have hlt : i.toNat < p.media_uris_.length := by omega
    rw [hs, vector_at_eq_some _ _ hlt] at hj
    rw [hj]
    simp only [reduceCtorEq, false_iff, not_or, not_lt, not_le, false_imp_iff, and_true,
      ne_eq, not_false_eq_true, true_imp_iff]
    exact hin
  · have hout : i < 0 ∨ (p.media_uris_.length : Int) ≤ i := by omega
    have hge : p.media_uris_.length ≤ size_t i := by
      rcases hout with hneg | hbig
      · have := size_t_of_neg i hneg (by omega)
        omega
      · rw [size_t_of_nonneg i (by omega) (by omega)]
        omega
    rw [vector_at_eq_none _ _ hge] at hj
    rw [hj]
    simp [instructions_append, instructions_wait_or_nil, instructions, hout]

theorem Jump_out_of_range_iff_witness :
    (twoItems.ready ∧ isInt32 2 ∧ twoItems.media_uris_.length ≤ max_size) ∧
    ((Jump twoItems 2).status = .threw .out_of_range ↔
      ((2 : Int) < 0 ∨ (twoItems.media_uris_.length : Int) ≤ 2)) ∧
    ((Jump twoItems 2).status ≠ .threw .out_of_range → (Jump twoItems 2).status = .ok) ∧
    ((Jump twoItems 2).status = .threw .out_of_range →
      instructions (Jump twoItems 2).emitted = ["player.pause();".toList] ∧
      (Jump twoItems 2).player.media_uris_ = twoItems.media_uris_ ∧
      (Jump twoItems 2).player.media_ids_ = twoItems.media_ids_) :=
  ⟨by decide, Jump_out_of_range_iff twoItems 2 (by decide) (by decide) (by decide)⟩

/-- Claim C6, refuted as stated: the payload `[12.5]` stripped is `12.5`, and
`[12abc]` stripped is `12abc`; neither is a signed integer, yet on both the
position (likewise duration) update returns normally and stores 12 over the
prior value 0. -/
theorem integer_channels_accept_leading_integer :
    (isSignedInteger (stripped "[12.5]".toList) = false ∧
      (on_position (Player.new 0) "[12.5]".toList).status = .ok ∧
      (on_position (Player.new 0) "[12.5]".toList).player.position_ = 12 ∧
      (on_duration (Player.new 0) "[12.5]".toList).status = .ok ∧
      (on_duration (Player.new 0) "[12.5]".toList).player.duration_ = 12) ∧
    (isSignedInteger (stripped "[12abc]".toList) = false ∧
      (on_position (Player.new 0) "[12abc]".toList).status = .ok ∧
      (on_position (Player.new 0) "[12abc]".toList).player.position_ = 12 ∧
      (on_duration (Player.new 0) "[12abc]".toList).status = .ok ∧
      (on_duration (Player.new 0) "[12abc]".toList).player.duration_ = 12) := by
  decide

/-- Claim C6, amended.  For every prior state and every non-empty position
(likewise duration) payload whose text, once its first and last character are
stripped, does not start with an integer that fits `int`, the update throws and
no member changes: `invalid_argument` when after white space and an optional
sign there is no digit (as in `abc`), `out_of_range` when the integer the text
starts with does not fit `int` (as in `99999999999abc`).  More generally an
update that does not return normally, whatever the payload, changes no
member. -/
theorem integer_channels_reject (p : Player) (event : Str) (hne : event ≠ [])
    (hsz : event.length ≤ max_size) (hbad : startsWithInt32 (stripped event) = false) :
    on_position p event =
      ⟨p, [], .threw (if leadingInteger (stripped event) = none then .invalid_argument
        else .out_of_range)⟩ ∧
    on_duration p event =
      ⟨p, [], .threw (if leadingInteger (stripped event) = none then .invalid_argument
        else .out_of_range)⟩ ∧
    (∀ ev : Str, (on_position p ev).status ≠ .ok →
      (on_position p ev).player.position_ = p.position_ ∧ (on_position p ev).player = p) ∧
    (∀ ev : Str, (on_duration p ev).status ≠ .ok →
      (on_duration p ev).player.duration_ = p.duration_ ∧ (on_duration p ev).player = p) := by
  have hstoi : stoi (stripped event) =
      .error (if leadingInteger (stripped event) = none then .invalid_argument
        else .out_of_range) := by
    rw [stoi_eq]
    unfold startsWithInt32 at hbad
    cases hv : leadingInteger (stripped event) with
    | none => simp
    | some v =>
      rw [hv] at hbad
      have hnot : ¬ isInt32 v := by simpa using hbad
      simp [hnot]
  refine ⟨?_, ?_, ?_, ?_⟩
  · simp only [on_position, unwrapEvent_of_ne_nil event hne hsz, hstoi]
  · simp only [on_duration, unwrapEvent_of_ne_nil event hne hsz, hstoi]
  · intro ev
    unfold on_position
    split
    · simp
    · split <;> simp [ret]
  · intro ev
    unfold on_duration
    split
    · simp
    · split <;> simp [ret]

theorem integer_channels_reject_witness :
    (("[abc]".toList ≠ [] ∧ "[abc]".toList.length ≤ max_size ∧
        startsWithInt32 (stripped "[abc]".toList) = false) ∧
      on_position (Player.new 0) "[abc]".toList =
        ⟨Player.new 0, [], .threw .invalid_argument⟩ ∧
      on_duration (Player.new 0) "[abc]".toList =
        ⟨Player.new 0, [], .threw .invalid_argument⟩) ∧
    (("[99999999999abc]".toList ≠ [] ∧ "[99999999999abc]".toList.length ≤ max_size ∧
        startsWithInt32 (stripped "[99999999999abc]".toList) = false) ∧
      on_position (Player.new 0) "[99999999999abc]".toList =
        ⟨Player.new 0, [], .threw .out_of_range⟩ ∧
      on_duration (Player.new 0) "[99999999999abc]".toList =
        ⟨Player.new 0, [], .threw .out_of_range⟩) :=
  ⟨⟨by decide,
      (integer_channels_reject (Player.new 0) "[abc]".toList (by decide) (by decide)
        (by decide)).1,
      (integer_channels_reject (Player.new 0) "[abc]".toList (by decide) (by decide)
        (by decide)).2.1⟩,
    ⟨by decide,
      (integer_channels_reject (Player.new 0) "[99999999999abc]".toList (by decide) (by decide)
        (by decide)).1,
      (integer_channels_reject (Player.new 0) "[99999999999abc]".toList (by decide) (by decide)
        (by decide)).2.1⟩⟩

/-- Claim C7.  For every payload received on a boolean channel, that is a text
`arg` inside one layer of quoting, the handler returns normally and sets its
flag to `true` exactly when the payload with its first and last character
removed (which is `arg`) is `true`, to `false` for every other payload; no
other member changes and no effect is issued. -/
theorem boolean_channels_quoted (p : Player) (opening closing : Char) (arg : Str)
    (hsz : arg.length + 2 ≤ max_size) :
    stripped (quoted opening closing arg) = arg ∧
    on_isPlaying p (quoted opening closing arg) =
      ⟨{ p with is_playing_ := decide (stripped (quoted opening closing arg) = "true".toList) },
        [], .ok⟩ ∧
    on_isBuffering p (quoted opening closing arg) =
      ⟨{ p with
          is_buffering_ := decide (stripped (quoted opening closing arg) = "true".toList) },
        [], .ok⟩ ∧
    on_isCompleted p (quoted opening closing arg) =
      ⟨{ p with
          is_completed_ := decide (stripped (quoted opening closing arg) = "true".toList) },
        [], .ok⟩ := by
  have hne : quoted opening closing arg ≠ [] := by simp [quoted]
  have hlen : (quoted opening closing arg).length ≤ max_size := by
    simp only [quoted, List.length_cons, List.length_append, List.length_nil]
    omega
  have h := payload_nonempty p (quoted opening closing arg) hne hlen
  exact ⟨by simp [stripped, quoted], h.1, h.2.1, h.2.2⟩

theorem boolean_channels_quoted_witness :
    ("true".toList.length + 2 ≤ max_size ∧ "maybe".toList.length + 2 ≤ max_size) ∧
    (quoted '[' ']' "true".toList = "[true]".toList ∧
      on_isPlaying (Player.new 0) "[true]".toList =
        ⟨{ Player.new 0 with is_playing_ := true }, [], .ok⟩ ∧
      on_isBuffering (Player.new 0) "[true]".toList =
        ⟨{ Player.new 0 with is_buffering_ := true }, [], .ok⟩ ∧
      on_isCompleted (Player.new 0) "[true]".toList =
        ⟨{ Player.new 0 with is_completed_ := true }, [], .ok⟩) ∧
    (on_isPlaying { Player.new 0 with is_playing_ := true } (quoted '[' ']' "maybe".toList) =
      ⟨Player.new 0, [], .ok⟩) :=
  ⟨by decide,
    ⟨by decide,
      (boolean_channels_quoted (Player.new 0) '[' ']' "true".toList (by decide)).2.1,
      (boolean_channels_quoted (Player.new 0) '[' ']' "true".toList (by decide)).2.2.1,
      (boolean_channels_quoted (Player.new 0) '[' ']' "true".toList (by decide)).2.2.2⟩,
    (boolean_channels_quoted { Player.new 0 with is_playing_ := true } '[' ']'
      "maybe".toList (by decide)).2.1⟩

/-- Claim C8.  Each of the seven state handlers, on every payload and whether
it returns or throws, changes no member other than its own mirrored field: the
other six fields, `media_uris_`, `media_ids_`, `index_` (and `id_`,
`initialized_`, the promise) are as before, and no effect is issued.  The
`initialized` handler changes nothing but the state of the promise. -/
theorem handlers_write_own_field (fl : FloatLib) (p : Player) (event : Str) :
    (on_isPlaying p event).player =
      { p with is_playing_ := (on_isPlaying p event).player.is_playing_ } ∧
    (on_isBuffering p event).player =
      { p with is_buffering_ := (on_isBuffering p event).player.is_buffering_ } ∧
    (on_isCompleted p event).player =
      { p with is_completed_ := (on_isCompleted p event).player.is_completed_ } ∧
    (on_position p event).player =
      { p with position_ := (on_position p event).player.position_ } ∧
    (on_duration p event).player =
      { p with duration_ := (on_duration p event).player.duration_ } ∧
    (on_volume fl p event).player =
      { p with volume_ := (on_volume fl p event).player.volume_ } ∧
    (on_rate fl p event).player =
      { p with rate_ := (on_rate fl p event).player.rate_ } ∧
    (on_initialized p event).player =
      { p with promise_set := (on_initialized p event).player.promise_set } ∧
    ∀ c : Channel, (deliver fl p c event).emitted = [] :=
  ⟨(on_isPlaying_frame p event).1, (on_isBuffering_frame p event).1,
    (on_isCompleted_frame p event).1, (on_position_frame p event).1,
    (on_duration_frame p event).1, (on_volume_frame fl p event).1,
    (on_rate_frame fl p event).1, (on_initialized_frame p event).1,
    fun c => by
      cases c
      · exact (on_initialized_frame p event).2
      · exact (on_isPlaying_frame p event).2
      · exact (on_isBuffering_frame p event).2
      · exact (on_isCompleted_frame p event).2
      · exact (on_position_frame p event).2
      · exact (on_duration_frame p event).2
      · exact (on_volume_frame fl p event).2
      · exact (on_rate_frame fl p event).2⟩

/-- Claim C9.  Start the two threads from any member state in which the
barrier has not been passed, with any program of operations for the control
thread.

* Under every schedule of control turns and notifications, at every moment:
  either no effect at all has been issued and no operation is done, or the
  trace of effects starts with the barrier wait and holds no second wait, so
  every scripted instruction and every window call comes after the wait has
  returned, and from then on `initialized_` stays true with the promise
  fulfilled.
* For every operation and member state: before the barrier is passed and
  with the promise unfulfilled the operation blocks, issuing nothing; before
  the barrier is passed and with the promise fulfilled it does not block, its
  first effect is the wait, no second wait follows (the calls nested in
  `Next`, `Back` and `Jump` included), and the barrier is passed afterwards;
  once the barrier is passed it does not block, issues no wait, and the
  barrier stays passed.  An operation is without defined behaviour only as
  `Open` of an empty list or as `Next`/`Back` overflowing `index_`.
* With the promise fulfilled, giving the control thread as many turns as its
  program has operations runs the whole program, or runs it up to an
  operation without defined behaviour (where the run is no longer followed);
  if the program is not empty the trace then starts with the one wait. -/
theorem barrier_waited_once_before_effects (fl : FloatLib) (p : Player) (prog : List Op)
    (ticks : List Tick) (h : p.initialized_ = false) :
    (((run fl ⟨p, prog, [], false⟩ ticks).trace = [] ∧
        (run fl ⟨p, prog, [], false⟩ ticks).program = prog ∧
        (run fl ⟨p, prog, [], false⟩ ticks).player.initialized_ = false) ∨
      (∃ rest, (run fl ⟨p, prog, [], false⟩ ticks).trace = .wait :: rest ∧
        Effect.wait ∉ rest ∧
        (run fl ⟨p, prog, [], false⟩ ticks).player.initialized_ = true ∧
        (run fl ⟨p, prog, [], false⟩ ticks).player.promise_set = true)) ∧
    (∀ (q : Player) (op : Op),
      (q.initialized_ = false → q.promise_set = false →
        perform fl q op = ⟨q, [], .blocked⟩) ∧
      (q.initialized_ = false → q.promise_set = true →
        ∃ rest, (perform fl q op).emitted = .wait :: rest ∧ Effect.wait ∉ rest ∧
          (perform fl q op).status ≠ .blocked ∧
          (perform fl q op).player.initialized_ = true) ∧
      (q.initialized_ = true →
        Effect.wait ∉ (perform fl q op).emitted ∧
          (perform fl q op).status ≠ .blocked ∧
          (perform fl q op).player.initialized_ = true) ∧
      ((perform fl q op).status = .undefined →
        (∃ ids, op = .Open [] ids) ∨ (op = .Next ∧ INT32_MAX < q.index_ + 1) ∨
          (op = .Back ∧ q.index_ - 1 < INT32_MIN))) ∧
    (p.promise_set = true →
      ((run fl ⟨p, prog, [], false⟩ (List.replicate prog.length .control)).halted = true ∨
        (run fl ⟨p, prog, [], false⟩ (List.replicate prog.length .control)).program = []) ∧
      (prog ≠ [] →
        ∃ rest, (run fl ⟨p, prog, [], false⟩ (List.replicate prog.length .control)).trace =
            .wait :: rest ∧ Effect.wait ∉ rest)) := by
  have hinv : ∀ ticks, barrierInv prog (run fl ⟨p, prog, [], false⟩ ticks) :=
    fun ticks => run_barrierInv fl prog ticks ⟨p, prog, [], false⟩ (Or.inl ⟨rfl, rfl, h, rfl⟩)
  refine ⟨?_, ?_, ?_⟩
  · rcases hinv ticks with ⟨h1, h2, h3, _⟩ | h4
    · exact Or.inl ⟨h1, h2, h3⟩
    · exact Or.inr h4
  · intro q op
    refine ⟨perform_blocked fl q op, ?_, ?_, perform_undefined fl q op⟩
    · intro hi hp
      have h1 := perform_initialized fl { q with initialized_ := true } op rfl
      rw [perform_first fl q op hi hp]
      exact ⟨_, rfl, h1.1, h1.2.2.2, h1.2.1⟩
    · intro hi
      have h1 := perform_initialized fl q op hi
      exact ⟨h1.1, h1.2.2.2, h1.2.1⟩
  · intro hp
    have hdone := run_control_completes fl prog ⟨p, prog, [], false⟩ (Or.inr hp) rfl rfl
    refine ⟨hdone, ?_⟩
    intro hne
    rcases hinv (List.replicate prog.length .control) with ⟨_, h2, _, h4⟩ | ⟨rest, h5, h6, _⟩
    · rcases hdone with hd | hd
      · rw [h4] at hd
        exact absurd hd (by decide)
      · rw [h2] at hd
        exact absurd hd hne
    · exact ⟨rest, h5, h6⟩

theorem barrier_waited_once_before_effects_witness :
    ((Player.new 0).initialized_ = false ∧
      (run noFloats ⟨Player.new 0, sampleProgram, [], false⟩ [.control, .control]).trace = [] ∧
      (run noFloats ⟨Player.new 0, sampleProgram, [], false⟩ sampleSchedule).trace =
        [.wait, .eval "player.src = encodeURI('a.mp4');".toList,
          .eval "player.pause();".toList, .eval "player.src = encodeURI('b.mp4');".toList,
          .eval "player.play();".toList] ∧
      ∃ rest, (run noFloats ⟨Player.new 0, sampleProgram, [], false⟩ sampleSchedule).trace =
          .wait :: rest ∧
        Effect.wait ∉ rest ∧
        (run noFloats ⟨Player.new 0, sampleProgram, [], false⟩
          sampleSchedule).player.initialized_ = true ∧
        (run noFloats ⟨Player.new 0, sampleProgram, [], false⟩
          sampleSchedule).player.promise_set = true) ∧
    ((twoItems.initialized_ = false ∧ twoItems.promise_set = true ∧ sampleProgram ≠ []) ∧
      ((run noFloats ⟨twoItems, sampleProgram, [], false⟩
          (List.replicate sampleProgram.length .control)).halted = true ∨
        (run noFloats ⟨twoItems, sampleProgram, [], false⟩
          (List.replicate sampleProgram.length .control)).program = []) ∧
      (run noFloats ⟨twoItems, sampleProgram, [], false⟩
          (List.replicate sampleProgram.length .control)) =
        ⟨{ twoItems with index_ := 1, initialized_ := true }, [],
          [.wait, .eval "player.src = encodeURI('a.mp4');".toList,
            .eval "player.pause();".toList, .eval "player.src = encodeURI('b.mp4');".toList,
            .eval "player.play();".toList], false⟩ ∧
      ∃ rest, (run noFloats ⟨twoItems, sampleProgram, [], false⟩
          (List.replicate sampleProgram.length .control)).trace = .wait :: rest ∧
        Effect.wait ∉ rest) :=
  ⟨⟨by decide, by decide, by decide,
      ((barrier_waited_once_before_effects noFloats (Player.new 0) sampleProgram sampleSchedule
        (by decide)).1).resolve_left (by decide)⟩,
    ⟨by decide,
      ((barrier_waited_once_before_effects noFloats twoItems sampleProgram [] (by decide)).2.2
        (by decide)).1,
      by decide,
      ((barrier_waited_once_before_effects noFloats twoItems sampleProgram [] (by decide)).2.2
        (by decide)).2 (by decide)⟩⟩

/-- Claim C10.  From the member state of a freshly constructed `Player` (all
flags false), after any finite sequence of media events of the bundled
document, each ingested through its listener in the order of the listener's
body, `is_playing_` and `is_completed_` are not both true.  This holds for all
nine events the document listens to, whatever text the numeric ones carry and
whatever the two quoting characters of the bridge are. -/
theorem playing_completed_never_both (fl : FloatLib) (opening closing : Char) (id : Int)
    (es : List MediaEvent) :
    ¬ ((ingestAll fl opening closing (Player.new id) es).is_playing_ = true ∧
       (ingestAll fl opening closing (Player.new id) es).is_completed_ = true) := by
  have key : ∀ (es : List MediaEvent) (p : Player), exclusive p →
      exclusive (ingestAll fl opening closing p es) := by
    intro es
    induction es with
    | nil => exact fun p h => h
    | cons e es ih =>
      intro p h
      exact ih _ (ingest_exclusive fl opening closing p e h)
  exact key es (Player.new id) (by simp [exclusive, Player.new])

/-! ## The scenario of section 8 of the specification -/

/-- The run of section 8: `Open` cues `a.mp4` at index 0 without playing; the
notification `isPlaying(true)` sets the flag; `Next()` pauses, sets the source
to `b.mp4` and plays, at index 1; a second `Next()` throws `out_of_range` after
the pause, with `index_` moved to 2. -/
theorem scenario_open_play_next_next :
    instructions (Open twoItems ["a.mp4".toList, "b.mp4".toList] [1, 2]).emitted =
      ["player.src = encodeURI('a.mp4');".toList] ∧
    opened.index_ = 0 ∧ opened.is_playing_ = false ∧
    (on_isPlaying opened "[true]".toList).player.is_playing_ = true ∧
    (Next opened).status = .ok ∧
    instructions (Next opened).emitted =
      ["player.pause();".toList, "player.src = encodeURI('b.mp4');".toList,
        "player.play();".toList] ∧
    (Next opened).player.index_ = 1 ∧
    (Next (Next opened).player).status = .threw .out_of_range ∧
    instructions (Next (Next opened).player).emitted = ["player.pause();".toList] ∧
    (Next (Next opened).player).player.index_ = 2 := by
  decide

/-- The same program under two schedules.  Without the `initialized`
notification the control thread stays in the wait: nothing is issued and no
operation is done.  With it, the first operation passes the wait and the
instructions follow in program order. -/
theorem schedule_blocks_until_ready :
    (run noFloats ⟨Player.new 0, [.Open ["a.mp4".toList, "b.mp4".toList] [1, 2], .Next], [],
        false⟩ [.control, .control, .control]) =
      ⟨Player.new 0, [.Open ["a.mp4".toList, "b.mp4".toList] [1, 2], .Next], [], false⟩ ∧
    (run noFloats ⟨Player.new 0, [.Open ["a.mp4".toList, "b.mp4".toList] [1, 2], .Next], [],
        false⟩ [.control, .render .initialized "[null]".toList, .control, .control]).trace =
      [.wait, .eval "player.src = encodeURI('a.mp4');".toList,
        .eval "player.pause();".toList, .eval "player.src = encodeURI('b.mp4');".toList,
        .eval "player.play();".toList] := by
  decide

end Libwinmedia
